import Mathlib

/-!
Verification of the simplearg argument parser (arguments.h / str2argv.h).

Shallow embedding: the `Arguments` cursor becomes an explicit state record
`Args`; the `char**` pointer `values_` becomes the index `pos` into the
caller-owned token array `arr`; the signed `count_` becomes `count : Int`
(negative = sticky failure); `errors_` becomes `errors : String`.
Pointer adjustment `values_[0] += pos` (performed by `unget` during the
`=`-split of `parse`) is modelled by replacing the array slot with the
corresponding suffix of its string, and `revert` restores the saved slot.
`std::from_chars` is modelled from its documented semantics: longest valid
prefix, `invalid_argument` when no number can be parsed, `result_out_of_range`
when the parsed value does not fit (the "inf"/"nan" forms and binary
floating-point rounding are not modelled; the floating-point value is kept as
the exact decimal rational).  The dispatch `unordered_map` is observed by the
code only through `find`/`operator[]=`, so it is modelled as a lookup
function.  `parse`'s token loop can genuinely diverge (a handler matched via
`=` that consumes nothing and returns true), so the loop takes explicit fuel
and returns `Option` (`none` = out of fuel).
-/

namespace Simplearg

variable {C : Type}

/-- Single-quote character as a string: the C++ code appends the character
literal for a single quote around tokens in its error messages. -/
def sq : String := String.singleton (Char.ofNat 39)

/-- State of the `Arguments` cursor: `arr` is the caller-owned token array,
`pos` the index corresponding to the `values_` pointer, `count` the signed
`count_` field, `errors` the accumulated `errors_` text. -/
structure Args where
  arr : List String
  pos : Nat
  count : Int
  errors : String
deriving DecidableEq

/-- `Arguments::message(...)`: sets `count_ = -1` and appends the pieces
(here already concatenated into one string) to `errors_`. -/
def message (s : Args) (txt : String) : Args :=
  { s with count := -1, errors := s.errors ++ txt }

/-- The current token `*values_`.  An out-of-range dereference (impossible on
the guarded paths) is modelled as the empty string. -/
def cur (s : Args) : String := s.arr.getD s.pos ""

/-- `Arguments::get()` (no slot): returns the current token as a view and
advances, or an empty view when `count_ <= 0`. -/
def get (s : Args) : String × Args :=
  if s.count ≤ 0 then ("", s)
  else (cur s, { s with count := s.count - 1, pos := s.pos + 1 })

/-- Numeric value of a list of decimal digits, most significant first. -/
def digitsToNat (ds : List Char) : Nat :=
  ds.foldl (fun a c => a * 10 + (c.toNat - '0'.toNat)) 0

/-- Result of a `std::from_chars` call: error codes or the parsed value. -/
inductive FromCharsOut (α : Type) where
  | invalid
  | outOfRange
  | ok (v : α)
deriving DecidableEq

/-- `std::from_chars` for an integer type with limits `[lo, hi]`
(`signed` = whether a leading minus is accepted): longest prefix of an
optional minus followed by decimal digits; no digits ⇒ `invalid`; parsed
value outside `[lo, hi]` ⇒ `outOfRange`.  Trailing non-numeric characters
are ignored. -/
def fromCharsInt (signed : Bool) (lo hi : Int) (t : String) : FromCharsOut Int :=
  let cs := t.data
  let neg := signed && (cs.head? == some '-')
  let r := if neg then cs.tail else cs
  let ds := r.takeWhile Char.isDigit
  if ds.isEmpty then .invalid
  else
    let n : Int := (digitsToNat ds : Int)
    let val := if neg then -n else n
    if val < lo ∨ hi < val then .outOfRange else .ok val

/-- `Arguments::get(T&)` for an integral slot with limits `[lo, hi]`.
Returns (result, slot value, new state); the slot is written only on
success, as `from_chars` leaves `value` unmodified on error. -/
def getInt (signed : Bool) (lo hi : Int) (v : Int) (s : Args) : Bool × Int × Args :=
  if s.count ≤ 0 then (false, v, s)
  else
    let tok := cur s
    match fromCharsInt signed lo hi tok with
    | .invalid => (false, v, message s ("expects number in place of " ++ sq ++ tok ++ sq))
    | .outOfRange => (false, v, message s ("expects number in range [" ++ toString lo ++ ".."
        ++ toString hi ++ "] in place of " ++ sq ++ tok ++ sq))
    | .ok q => (true, q, { s with count := s.count - 1, pos := s.pos + 1 })

/-- Largest finite `double`, `(2^53 - 1) * 2^971`, as a rational. -/
def maxDouble : ℚ := ((2 : ℚ) ^ 53 - 1) * 2 ^ 971

/-- `std::from_chars` for `double` (format `general`): longest prefix
matching optional minus, integer digits, optional fraction, optional
exponent (`e`/`E`, optional minus, digits — only consumed when digits
follow); no mantissa digits ⇒ `invalid`.  The value is kept as the exact
decimal rational; magnitudes above `maxDouble` give `outOfRange`. -/
def fromCharsFloat (t : String) : FromCharsOut ℚ :=
  let cs := t.data
  let neg := cs.head? == some '-'
  let r0 := if neg then cs.tail else cs
  let ip := r0.takeWhile Char.isDigit
  let r1 := r0.drop ip.length
  let hasDot := r1.head? == some '.'
  let fp := if hasDot then r1.tail.takeWhile Char.isDigit else []
  let r2 := if hasDot then r1.tail.drop fp.length else r1
  if ip.isEmpty && fp.isEmpty then .invalid
  else
    let ex : Int :=
      if r2.head? == some 'e' || r2.head? == some 'E' then
        let r3 := r2.tail
        let eneg := r3.head? == some '-'
        let r4 := if eneg then r3.tail else r3
        let ed := r4.takeWhile Char.isDigit
        if ed.isEmpty then 0
        else if eneg then -(digitsToNat ed : Int) else (digitsToNat ed : Int)
      else 0
    let mant : ℚ := (digitsToNat ip : ℚ) + (digitsToNat fp : ℚ) / (10 : ℚ) ^ fp.length
    let q := (if neg then -mant else mant) * (10 : ℚ) ^ ex
    if maxDouble < |q| then .outOfRange else .ok q

/-- `Arguments::get(double&)`. -/
def getDouble (v : ℚ) (s : Args) : Bool × ℚ × Args :=
  if s.count ≤ 0 then (false, v, s)
  else
    let tok := cur s
    match fromCharsFloat tok with
    | .invalid => (false, v, message s ("expects floating point value in place of " ++ sq ++ tok ++ sq))
    | .outOfRange => (false, v, message s ("expects number in double range in place of " ++ sq ++ tok ++ sq))
    | .ok q => (true, q, { s with count := s.count - 1, pos := s.pos + 1 })

/-- `Arguments::get(std::string&)`: consumes the current token verbatim. -/
def getStr (v : String) (s : Args) : Bool × String × Args :=
  if s.count ≤ 0 then (false, v, s)
  else (true, cur s, { s with count := s.count - 1, pos := s.pos + 1 })

/-- One slot of a `getall` pack, carrying its current value (the C++ slots
are passed by reference and mutated in place). -/
inductive Slot where
  | int (signed : Bool) (lo hi : Int) (v : Int)
  | dbl (v : ℚ)
  | str (v : String)
deriving DecidableEq

/-- Dispatch of `get(values)` on one slot of the pack. -/
def getSlot : Slot → Args → Bool × Slot × Args
  | .int sg lo hi v, s =>
    let r := getInt sg lo hi v s
    (r.1, .int sg lo hi r.2.1, r.2.2)
  | .dbl v, s =>
    let r := getDouble v s
    (r.1, .dbl r.2.1, r.2.2)
  | .str v, s =>
    let r := getStr v s
    (r.1, .str r.2.1, r.2.2)

/-- The fold `(get(values) && ...)`: left-to-right, short-circuiting at the
first failing `get`. -/
def getallGo : List Slot → Args → Bool × List Slot × Args
  | [], s => (true, [], s)
  | a :: rest, s =>
    let r := getSlot a s
    if r.1 then
      let rr := getallGo rest r.2.2
      (rr.1, r.2.1 :: rr.2.1, rr.2.2)
    else (false, r.2.1 :: rest, r.2.2)

/-- `Arguments::getall(values...)`: fail fast in the sticky failure state;
arity check (with message) before any slot is consumed; otherwise the
short-circuit fold. -/
def getall (slots : List Slot) (s : Args) : Bool × List Slot × Args :=
  if s.count < 0 then (false, slots, s)
  else if (slots.length : Int) > s.count then
    (false, slots, message s ("expects " ++ toString slots.length
      ++ " parameters, got only " ++ toString s.count))
  else getallGo slots s

/-- `Arguments::errors(std::string&& initial)`: swaps in the new error text,
returning the previous contents.  Only `errors_` is touched. -/
def errorsSwap (initial : String) (s : Args) : String × Args :=
  (s.errors, { s with errors := initial })

/-- Type of `Parameter<Class>::dispatcher_type`, a bound method
`(name, cursor) -> bool` that may also mutate the handler object. -/
def Dispatcher (C : Type) : Type := String → C → Args → Bool × C × Args

/-- `Parameter<Class>`: `none` models a null `const char*` / null method
pointer. -/
structure Param (C : Type) where
  dispatcher : Option (Dispatcher C)
  name : Option String
  descr : String
  aliases : Option String

/-- `Parameter::operator bool()`:
`!(name_ == nullptr || name_[0] == '\0' || dispatcher_ == nullptr)`. -/
def pValid (p : Param C) : Bool :=
  !(p.name.isNone || decide (p.name = some "") || p.dispatcher.isNone)

/-- Maximal nonempty space-free runs of a character list.  `fillaliases`
walks the blob skipping space runs and `put`s each chunk; the `put` callback
in `parse` drops empty views (`if (!alias.empty())`), so only these words
ever reach the dispatch table — the emptiness filter of the callback is
inlined here. -/
def wordsGo (acc : List Char) : List Char → List (List Char)
  | [] => if acc.isEmpty then [] else [acc.reverse]
  | c :: cs =>
    if c = ' ' then
      if acc.isEmpty then wordsGo [] cs else acc.reverse :: wordsGo [] cs
    else wordsGo (c :: acc) cs

/-- `Arguments::fillaliases` composed with the empty-dropping `put` callback:
null or empty blob contributes nothing, otherwise the space-delimited
nonempty words. -/
def aliasWords : Option String → List String
  | none => []
  | some a => if a = "" then [] else (wordsGo [] a.data).map (fun l => String.mk l)

/-- All lookup keys one descriptor contributes when valid: its canonical
name followed by its alias words. -/
def pKeys (p : Param C) : List String :=
  match p.name with
  | some n => n :: aliasWords p.aliases
  | none => []

/-- The ephemeral dispatch `unordered_map`, observed only through `find` and
`operator[]` assignment: modelled as a lookup function. -/
def DMap (C : Type) : Type := String → Option (Dispatcher C)

/-- The empty map. -/
def dmEmpty : DMap C := fun _ => none

/-- `dispatchers[k] = d` (insert-or-assign). -/
def dmInsert (m : DMap C) (k : String) (d : Dispatcher C) : DMap C :=
  fun q => if q = k then some d else m q

/-- One iteration of the dispatch-table construction loop in
`Arguments::parse`: skip the descriptor unless `operator bool` holds, else
insert its name and every alias word. -/
def paramStep (m : DMap C) (p : Param C) : DMap C :=
  match p.dispatcher, p.name with
  | some d, some n =>
    if n = "" then m
    else (aliasWords p.aliases).foldl (fun m2 a => dmInsert m2 a d) (dmInsert m n d)
  | _, _ => m

/-- The dispatch table built fresh at the top of `Arguments::parse`. -/
def buildMap (params : List (Param C)) : DMap C :=
  params.foldl paramStep dmEmpty

/-- Specification predicate for the dispatch table (following the spec's
words): descriptor `p` contributes the lookup key `k` exactly when `p`
passes the validity predicate and `k` is its canonical name or one of its
non-empty space-delimited aliases. -/
def contributes (k : String) (p : Param C) : Bool :=
  pValid p && decide (k ∈ pKeys p)

/-- `param.find('=')`: index of the first `'='`, if any. -/
def findEq (t : String) : Option Nat :=
  let i := t.data.findIdx (fun c => c == '=')
  if i < t.data.length then some i else none

/-- `substr(0, n)` on a token (character-list based, as the C++ code works
on bytes). -/
def strTake (t : String) (n : Nat) : String := String.mk (t.data.take n)

/-- The pointer adjustment `p += n` into a token string. -/
def strDrop (t : String) (n : Nat) : String := String.mk (t.data.drop n)

/-- The lookup key of a token: truncated just after the first `'='` when one
is present (`param = param.substr(0, eq + 1)`), the whole token otherwise. -/
def keyOf (t : String) : String :=
  match findEq t with
  | some i => strTake t (i + 1)
  | none => t

/-- `Arguments::unget(pos)`: no-op in the failure state; otherwise steps the
cursor back one slot, saves `(values_, *values_)` and advances the slot's
string by `pos` bytes (`values_[0] += pos`), exposing the remainder as the
next token. -/
def unget (n : Nat) (s : Args) : Option (Nat × String) × Args :=
  if s.count < 0 then (none, s)
  else
    let i := s.pos - 1
    let orig := s.arr.getD i ""
    (some (i, orig),
      { s with count := s.count + 1, pos := i, arr := s.arr.set i (strDrop orig n) })

/-- `Arguments::revert(saved)`: restores the saved slot pointer, a no-op for
the `nothing` record. -/
def revert (sv : Option (Nat × String)) (s : Args) : Args :=
  match sv with
  | none => s
  | some (i, orig) => { s with arr := s.arr.set i orig }

/-- The unknown-verb error: one `message` call for the header, then one
`message(' ', p.name())` per descriptor of the original table.  A null
`name()` pointer would be undefined behaviour in the C++ `+=`; it is
modelled as the empty string and excluded by hypothesis in the theorems. -/
def unknownMsg (key : String) (params : List (Param C)) (s : Args) : Args :=
  message s ("Unknown verb " ++ sq ++ key ++ sq ++ " expected one of:"
    ++ String.join (params.map (fun p => " " ++ p.name.getD "")))

/-- Exit cases of `Arguments::parse`, one constructor per `return` site:
`ok` = the token loop exited at its condition (returns `true`);
`emptyCursor` = the initial `count_ <= 0` check; `unknownVerb` = lookup
failure; `handlerFailed` = a dispatched method returned `false`. -/
inductive PResult (C : Type) where
  | ok (obj : C) (s : Args)
  | emptyCursor (obj : C) (s : Args)
  | unknownVerb (key : String) (obj : C) (s : Args)
  | handlerFailed (key : String) (obj : C) (s : Args)
deriving DecidableEq

/-- The boolean `parse` actually returns for each exit case. -/
def PResult.toBool : PResult C → Bool
  | .ok _ _ => true
  | .emptyCursor _ _ => false
  | .unknownVerb _ _ _ => false
  | .handlerFailed _ _ _ => false

/-- The final cursor state of a `parse` run. -/
def PResult.args : PResult C → Args
  | .ok _ s => s
  | .emptyCursor _ s => s
  | .unknownVerb _ _ s => s
  | .handlerFailed _ _ s => s

/-- The token loop of `Arguments::parse`:
`for(param = get(); count_ >= 0 && !param.empty(); param = get())`, with the
`=`-split (`unget`), dispatch, and `revert` of each iteration.  `fuel`
bounds the number of iterations (`none` = exhausted): the C++ loop can
diverge when a handler matched via `=` consumes nothing and returns true. -/
def parseLoop (disp : DMap C) (params : List (Param C)) :
    Nat → C → String → Args → Option (PResult C)
  | 0, _, _, _ => none
  | fuel + 1, obj, param, s =>
    if s.count < 0 ∨ param = "" then some (.ok obj s)
    else
      let key := keyOf param
      match disp key with
      | none => some (.unknownVerb key obj (unknownMsg key params s))
      | some d =>
        let sv : Option (Nat × String) × Args :=
          match findEq param with
          | some i => unget (i + 1) s
          | none => (none, s)
        let r := d key obj sv.2
        let s3 := revert sv.1 r.2.2
        if r.1 then
          let g := get s3
          parseLoop disp params fuel r.2.1 g.1 g.2
        else some (.handlerFailed key r.2.1 s3)

/-- `Arguments::parse(obj, params)`: fail at once on an empty cursor, build
the dispatch table, then run the token loop. -/
def parseR (fuel : Nat) (obj : C) (params : List (Param C)) (s : Args) :
    Option (PResult C) :=
  if s.count ≤ 0 then some (.emptyCursor obj s)
  else
    let disp := buildMap params
    let g := get s
    parseLoop disp params fuel obj g.1 g.2

/-- The boolean result of `Arguments::parse`. -/
def parseB (fuel : Nat) (obj : C) (params : List (Param C)) (s : Args) :
    Option Bool :=
  (parseR fuel obj params s).map PResult.toBool

/-- States of the `str2argv` tokenizer automaton. -/
inductive TState where
  | space
  | comment
  | start
  | token
deriving DecidableEq

/-- Character classes of the `str2argv` tokenizer. -/
inductive TSymbol where
  | space
  | comment
  | token
  | eol
deriving DecidableEq

/-- The 4×4 `transitions` table of `str2argv`, row = state, column = symbol. -/
def transitions : TState → TSymbol → TState
  | .space, .space => .space
  | .space, .comment => .comment
  | .space, .token => .start
  | .space, .eol => .space
  | .comment, .space => .comment
  | .comment, .comment => .comment
  | .comment, .token => .comment
  | .comment, .eol => .space
  | .start, .space => .space
  | .start, .comment => .comment
  | .start, .token => .token
  | .start, .eol => .space
  | .token, .space => .space
  | .token, .comment => .comment
  | .token, .token => .token
  | .token, .eol => .space

/-- Symbol classification of `str2argv`:
`chr == '\n' ? eol : chr <= ' ' ? space : chr == comment ? comment : token`
(byte comparison, modelled on code points). -/
def symbolOf (comment c : Char) : TSymbol :=
  if c = '\n' then .eol
  else if c ≤ ' ' then .space
  else if c = comment then .comment
  else .token

/-- The `str2argv` loop from position `i` in state `st`: returns the
rewritten buffer (non-token symbols overwritten with the terminator byte)
and the recorded token-start indices (the `emplace_back(&chr)` calls). -/
def str2argvGo (comment : Char) : TState → Nat → List Char → List Char × List Nat
  | _, _, [] => ([], [])
  | st, i, c :: cs =>
    let sym := symbolOf comment c
    let c2 := if sym = .token then c else Char.ofNat 0
    let st2 := transitions st sym
    let rest := str2argvGo comment st2 (i + 1) cs
    (c2 :: rest.1, if st2 = .start then i :: rest.2 else rest.2)

/-- `simplearg::str2argv(str, comment)` over the buffer's characters:
(rewritten buffer, token start positions). -/
def str2argv (comment : Char) (s : List Char) : List Char × List Nat :=
  str2argvGo comment .space 0 s

/-- The tokens denoted by a `str2argv` result: each recorded start position
read up to the next terminator byte (C strings into the rewritten buffer). -/
def tokensOf (r : List Char × List Nat) : List String :=
  r.2.map (fun i => String.mk ((r.1.drop i).takeWhile (fun c => !(c == Char.ofNat 0))))

/-! ## Helper lemmas -/

theorem get?_some_lt {α : Type} :
    ∀ (l : List α) (i : Nat) (a : α), l.get? i = some a → i < l.length := by
  intro l
  induction l with
  | nil => intro i a h; simp [List.get?] at h
  | cons x xs ih =>
    intro i a h
    cases i with
    | zero => simp
    | succ j =>
      simp only [List.get?] at h
      have := ih j a h
      simpa [Nat.succ_lt_succ_iff] using this

theorem getD_of_get? {α : Type} :
    ∀ (l : List α) (i : Nat) (a d : α), l.get? i = some a → l.getD i d = a := by
  intro l
  induction l with
  | nil => intro i a d h; simp [List.get?] at h
  | cons x xs ih =>
    intro i a d h
    cases i with
    | zero => simp only [List.get?] at h; simpa [List.getD] using h
    | succ j =>
      simp only [List.get?] at h
      simpa [List.getD] using ih j a d h

theorem getD_set_self {α : Type} :
    ∀ (l : List α) (i : Nat) (a d : α), i < l.length → (l.set i a).getD i d = a := by
  intro l
  induction l with
  | nil => intro i a d h; simp at h
  | cons x xs ih =>
    intro i a d h
    cases i with
    | zero => simp [List.getD]
    | succ j =>
      simp only [List.length_cons, Nat.succ_lt_succ_iff] at h
      simpa [List.set, List.getD] using ih j a d h

theorem set_of_get? {α : Type} :
    ∀ (l : List α) (i : Nat) (a : α), l.get? i = some a → l.set i a = l := by
  intro l
  induction l with
  | nil => intro i a h; simp [List.get?] at h
  | cons x xs ih =>
    intro i a h
    cases i with
    | zero =>
      simp only [List.get?] at h
      injection h with h2
      simp [List.set, h2]
    | succ j =>
      simp only [List.get?] at h
      simp [List.set, ih j a h]

theorem takeWhile_append_eq {α : Type} {p : α → Bool} :
    ∀ (ds junk : List α), (∀ c ∈ ds, p c = true) →
      (∀ c, junk.head? = some c → p c = false) →
      (ds ++ junk).takeWhile p = ds := by
  intro ds
  induction ds with
  | nil =>
    intro junk _ hj
    cases junk with
    | nil => rfl
    | cons j js => simp [List.takeWhile, hj j rfl]
  | cons d ds ih =>
    intro junk hd hj
    have hpd : p d = true := hd d (by simp)
    simp [List.takeWhile, hpd, ih junk (fun c hc => hd c (by simp [hc])) hj]

theorem drop_len_succ_append {α : Type} :
    ∀ (l : List α) (x : α) (r : List α), (l ++ x :: r).drop (l.length + 1) = r := by
  intro l x r
  simp

theorem take_len_succ_append {α : Type} :
    ∀ (l : List α) (x : α) (r : List α), (l ++ x :: r).take (l.length + 1) = l ++ [x] := by
  intro l x r
  have h : (l ++ [x]) ++ r = l ++ x :: r := by simp
  have h2 : ((l ++ [x]) ++ r).take (l ++ [x]).length = l ++ [x] := List.take_left _ _
  simpa [h] using h2

theorem findIdx_append_first {α : Type} {p : α → Bool} :
    ∀ (l : List α) (x : α) (r : List α), (∀ c ∈ l, p c = false) → p x = true →
      (l ++ x :: r).findIdx p = l.length := by
  intro l
  induction l with
  | nil => intro x r _ hx; simp [List.findIdx_cons, hx]
  | cons a as ih =>
    intro x r hl hx
    have ha : p a = false := hl a (by simp)
    simp [List.findIdx_cons, ha, ih x r (fun c hc => hl c (by simp [hc])) hx]

theorem str_mk_data : ∀ (s : String), String.mk s.data = s := by
  intro s; cases s; rfl

/-! ## Dispatch-table characterization (C8 chain) -/

theorem insFold_eval {C : Type} :
    ∀ (ws : List String) (d : Dispatcher C) (m : DMap C) (k : String),
      (ws.foldl (fun m2 a => dmInsert m2 a d) m) k
        = if k ∈ ws then some d else m k := by
  intro ws d
  induction ws with
  | nil => intro m k; simp
  | cons a rest ih =>
    intro m k
    simp only [List.foldl_cons, ih]
    by_cases hk : k ∈ rest
    · simp [hk]
    · by_cases hka : k = a
      · simp [hk, hka, dmInsert]
      · simp [hk, hka, dmInsert]

theorem paramStep_eval {C : Type} :
    ∀ (p : Param C) (m : DMap C) (k : String),
      paramStep m p k = if contributes k p then p.dispatcher else m k := by
  intro p m k
  rcases p with ⟨dis, nam, de, al⟩
  cases dis with
  | none =>
    simp [paramStep, contributes, pValid]
  | some d =>
    cases nam with
    | none => simp [paramStep, contributes, pValid, pKeys]
    | some n =>
      by_cases hn : n = ""
      · simp [paramStep, hn, contributes, pValid]
      · simp only [paramStep, if_neg hn]
        rw [insFold_eval]
        by_cases ha : k ∈ aliasWords al
        · simp [ha, contributes, pValid, pKeys, hn]
        · by_cases hkn : k = n
          · simp [ha, hkn, dmInsert, contributes, pValid, pKeys, hn]
          · simp [ha, hkn, dmInsert, contributes, pValid, pKeys, hn]

theorem buildAux {C : Type} :
    ∀ (params : List (Param C)) (m : DMap C) (k : String),
      (params.foldl paramStep m) k
        = (params.reverse.find? (contributes k)).elim (m k) Param.dispatcher := by
  intro params
  induction params with
  | nil => intro m k; rfl
  | cons p rest ih =>
    intro m k
    have hrev : (p :: rest).reverse = rest.reverse ++ [p] := by simp
    rw [List.foldl_cons, ih, hrev, List.find?_append]
    cases hfind : rest.reverse.find? (contributes k) with
    | some q => simp [Option.or]
    | none =>
      cases hp : contributes k p with
      | true => simp [Option.or, List.find?, hp, paramStep_eval]
      | false => simp [Option.or, List.find?, hp, paramStep_eval]

theorem mk_data : ∀ (l : List Char), (String.mk l).data = l := fun _ => rfl

theorem digitsToNat_nil : digitsToNat [] = 0 := rfl

theorem some_beq_some {α : Type} [BEq α] (a b : α) : (some a == some b) = (a == b) := rfl

theorem none_beq_some {α : Type} [BEq α] (b : α) : ((none : Option α) == some b) = false := rfl

theorem digit_not_dash : ∀ (c : Char), c.isDigit = true → (c == '-') = false := by
  intro c h
  rw [beq_eq_false_iff_ne]
  intro h2
  rw [h2] at h
  exact absurd h (by decide)

theorem fromCharsInt_digits (sg : Bool) (lo hi : Int) (ds junk : List Char)
    (hne : ds ≠ []) (hds : ∀ c ∈ ds, c.isDigit = true)
    (hjunk : ∀ c, junk.head? = some c → c.isDigit = false)
    (hlo : lo ≤ (digitsToNat ds : Int)) (hhi : (digitsToNat ds : Int) ≤ hi) :
    fromCharsInt sg lo hi (String.mk (ds ++ junk)) = .ok (digitsToNat ds : Int) := by
  obtain ⟨d0, ds', rfl⟩ : ∃ d0 ds', ds = d0 :: ds' := by
    cases ds with
    | nil => exact absurd rfl hne
    | cons a b => exact ⟨a, b, rfl⟩
  have hd0 : d0.isDigit = true := hds d0 (by simp)
  have hdash : (d0 == '-') = false := digit_not_dash d0 hd0
  have htw : (d0 :: (ds' ++ junk)).takeWhile Char.isDigit = d0 :: ds' := by
    have h := takeWhile_append_eq (p := Char.isDigit) (d0 :: ds') junk hds hjunk
    simpa using h
  unfold fromCharsInt
  simp only [mk_data, List.cons_append, List.head?_cons, some_beq_some, hdash, Bool.and_false,
    Bool.false_eq_true, if_false, htw, List.isEmpty_cons]
  rw [if_neg (by omega)]

theorem fromCharsFloat_digits (ds junk : List Char)
    (hne : ds ≠ []) (hds : ∀ c ∈ ds, c.isDigit = true)
    (hjunk : ∀ c, junk.head? = some c → c.isDigit = false)
    (hjunk2 : ∀ c, junk.head? = some c → c ≠ '.' ∧ c ≠ 'e' ∧ c ≠ 'E')
    (hmax : (digitsToNat ds : ℚ) ≤ maxDouble) :
    fromCharsFloat (String.mk (ds ++ junk)) = .ok (digitsToNat ds : ℚ) := by
  obtain ⟨d0, ds', rfl⟩ : ∃ d0 ds', ds = d0 :: ds' := by
    cases ds with
    | nil => exact absurd rfl hne
    | cons a b => exact ⟨a, b, rfl⟩
  have hd0 : d0.isDigit = true := hds d0 (by simp)
  have hdash : (d0 == '-') = false := digit_not_dash d0 hd0
  have htw : (d0 :: (ds' ++ junk)).takeWhile Char.isDigit = d0 :: ds' := by
    have h := takeWhile_append_eq (p := Char.isDigit) (d0 :: ds') junk hds hjunk
    simpa using h
  have hdot : (junk.head? == some '.') = false := by
    cases junk with
    | nil => rfl
    | cons j js =>
      rw [List.head?, some_beq_some, beq_eq_false_iff_ne]
      exact (hjunk2 j rfl).1
  have he1 : (junk.head? == some 'e') = false := by
    cases junk with
    | nil => rfl
    | cons j js =>
      rw [List.head?, some_beq_some, beq_eq_false_iff_ne]
      exact (hjunk2 j rfl).2.1
  have he2 : (junk.head? == some 'E') = false := by
    cases junk with
    | nil => rfl
    | cons j js =>
      rw [List.head?, some_beq_some, beq_eq_false_iff_ne]
      exact (hjunk2 j rfl).2.2
  have hdrop : (d0 :: (ds' ++ junk)).drop (d0 :: ds').length = junk := by
    simp
  have habs : |((digitsToNat (d0 :: ds') : ℚ))| = (digitsToNat (d0 :: ds') : ℚ) :=
    abs_of_nonneg (Nat.cast_nonneg _)
  unfold fromCharsFloat
  simp only [mk_data, List.cons_append, List.head?_cons, some_beq_some, hdash,
    Bool.false_eq_true, if_false, htw, hdrop, hdot, he1, he2, Bool.or_self,
    List.isEmpty_cons, Bool.false_and, digitsToNat_nil, Nat.cast_zero, List.length_nil,
    pow_zero, zero_div, add_zero, zpow_zero, mul_one]
  rw [if_neg (by rw [habs]; exact not_lt.mpr hmax)]

/-! ## Claim theorems -/

/-- Claim C8: dispatch-table construction inside `parse` skips exactly the
descriptors failing the validity predicate, and every valid descriptor
contributes its canonical name and each non-empty space-delimited alias,
mapped to its dispatch-reference.  Characterization: looking up any key in
the built table finds the dispatch-reference of the last descriptor (the
`unordered_map` assignment overwrites) that validly contributes that key,
and `none` when no valid descriptor contributes it. -/
theorem c8_dispatch_table_characterization {C : Type} :
    ∀ (params : List (Param C)) (k : String),
      buildMap params k = (params.reverse.find? (contributes k)).bind Param.dispatcher := by
  intro params k
  rw [buildMap, buildAux]
  cases params.reverse.find? (contributes k) with
  | none => rfl
  | some p => rfl

/-- Claim C1 (amended): `errors(replacement)` swaps in the new error text and
returns the previous contents, but it does **not** reset the sticky FAILURE
state — `count_` is untouched, so extraction on a FAILURE cursor still fails
without consuming even after the drain. -/
theorem c1_errors_swap_no_reset :
    (∀ (r : String) (s : Args), errorsSwap r s = (s.errors, { s with errors := r })) ∧
    (∀ (r : String) (s : Args), s.count < 0 →
      (errorsSwap r s).2.count < 0 ∧ get (errorsSwap r s).2 = ("", (errorsSwap r s).2)) := by
  constructor
  · intro r s; rfl
  · intro r s h
    refine ⟨h, ?_⟩
    have hle : (errorsSwap r s).2.count ≤ 0 := le_of_lt h
    simp [get, hle]

/-- Witness for C1: a concrete FAILURE cursor, drained with `errors("ctx")`,
still fails to consume. -/
theorem c1_witness :
    (errorsSwap "ctx" (Args.mk ["a"] 0 (-2) "old")).2.count < 0 ∧
    get (errorsSwap "ctx" (Args.mk ["a"] 0 (-2) "old")).2
      = ("", (errorsSwap "ctx" (Args.mk ["a"] 0 (-2) "old")).2) :=
  c1_errors_swap_no_reset.2 "ctx" (Args.mk ["a"] 0 (-2) "old") (by decide)

/-- Counterexample to C1 as stated: cursor in FAILURE state with a token
remaining (`pos 0 < arr.length 1`); after draining `errors("")` the count is
still `-1` and both `get()` and `get(std::string&)` still refuse to consume —
the drain does not re-permit consumption. -/
theorem c1_counterexample :
    errorsSwap "" (Args.mk ["tok"] 0 (-1) "prev") = ("prev", Args.mk ["tok"] 0 (-1) "") ∧
    get (Args.mk ["tok"] 0 (-1) "") = ("", Args.mk ["tok"] 0 (-1) "") ∧
    getStr "s0" (Args.mk ["tok"] 0 (-1) "") = (false, "s0", Args.mk ["tok"] 0 (-1) "") ∧
    0 < (Args.mk ["tok"] 0 (-1) "").arr.length := by
  decide

/-- Claim C2 (amended): the single-value extractions (`get` on integer,
floating-point and text slots, and slotless `get()`) return failure on an
empty or FAILURE cursor with the state — error text included — unchanged;
`getall` on a FAILURE cursor likewise; but `getall` with at least one slot
on an *empty non-FAILURE* cursor fails its arity check, entering FAILURE and
appending "expects N parameters, got only 0" (and `getall()` with zero slots
even returns success on an empty cursor). -/
theorem c2_fail_fast_amended :
    (∀ (sg : Bool) (lo hi v : Int) (s : Args), s.count ≤ 0 → getInt sg lo hi v s = (false, v, s)) ∧
    (∀ (v : ℚ) (s : Args), s.count ≤ 0 → getDouble v s = (false, v, s)) ∧
    (∀ (v : String) (s : Args), s.count ≤ 0 → getStr v s = (false, v, s)) ∧
    (∀ (s : Args), s.count ≤ 0 → get s = ("", s)) ∧
    (∀ (slots : List Slot) (s : Args), s.count < 0 → getall slots s = (false, slots, s)) ∧
    (∀ (s : Args), 0 ≤ s.count → getall [] s = (true, [], s)) ∧
    (∀ (slots : List Slot) (s : Args), s.count = 0 → slots ≠ [] →
      getall slots s = (false, slots,
        message s ("expects " ++ toString slots.length
          ++ " parameters, got only " ++ toString s.count))) := by
  refine ⟨?_, ?_, ?_, ?_, ?_, ?_, ?_⟩
  · intro sg lo hi v s h; unfold getInt; rw [if_pos h]
  · intro v s h; unfold getDouble; rw [if_pos h]
  · intro v s h; unfold getStr; rw [if_pos h]
  · intro s h; unfold get; rw [if_pos h]
  · intro slots s h; unfold getall; rw [if_pos h]
  · intro s h
    unfold getall
    rw [if_neg (by omega), if_neg (by simpa using h)]
    rfl
  · intro slots s h hne
    have hlen : 0 < slots.length := List.length_pos.mpr hne
    unfold getall
    rw [if_neg (by omega), if_pos (by omega)]

/-- Witness for C2 (amended): empty-cursor `get(T&)` leaves everything
untouched; FAILURE-cursor `getall` leaves everything untouched; empty-cursor
`getall` with two slots appends the arity message. -/
theorem c2_witness :
    getInt true (-5) 5 7 (Args.mk ["9"] 0 0 "E") = (false, 7, Args.mk ["9"] 0 0 "E") ∧
    getall [Slot.dbl 0] (Args.mk ["x"] 1 (-3) "E2") = (false, [Slot.dbl 0], Args.mk ["x"] 1 (-3) "E2") ∧
    getall [Slot.str "u", Slot.str "w"] (Args.mk [] 0 0 "")
      = (false, [Slot.str "u", Slot.str "w"],
          message (Args.mk [] 0 0 "") ("expects " ++ toString ([Slot.str "u", Slot.str "w"].length)
            ++ " parameters, got only " ++ toString ((Args.mk [] 0 0 "").count))) :=
  ⟨c2_fail_fast_amended.1 true (-5) 5 7 _ (by decide),
   c2_fail_fast_amended.2.2.2.2.1 [Slot.dbl 0] _ (by decide),
   c2_fail_fast_amended.2.2.2.2.2.2 [Slot.str "u", Slot.str "w"] _ (by decide) (by decide)⟩

/-- Counterexample to C2 as stated: `getall` with one slot on an empty
non-FAILURE cursor (`count = 0`) does **not** "return failure without
entering the FAILURE state and without appending any error message" — it
enters FAILURE (`count = -1`) and appends the arity message. -/
theorem c2_counterexample :
    getall [Slot.str ""] (Args.mk [] 0 0 "")
      = (false, [Slot.str ""], Args.mk [] 0 (-1) "expects 1 parameters, got only 0") ∧
    (Args.mk [] 0 (-1) "expects 1 parameters, got only 0").count < 0 ∧
    (Args.mk [] 0 (-1) "expects 1 parameters, got only 0").errors ≠ "" := by
  decide

/-- Claim C6: `getall` on a non-FAILURE cursor with fewer tokens than slots
fails with "expects N parameters, got only M" before consuming or mutating
any slot (the returned slots and the position are those of the input);
with enough tokens it runs the left-to-right short-circuit fold: a
succeeding head `get` feeds its state to the rest, a failing head `get`
stops at once with the remaining slots untouched and no rollback of the
state already consumed. -/
theorem c6_getall_arity_short_circuit :
    (∀ (slots : List Slot) (s : Args), 0 ≤ s.count → s.count < (slots.length : Int) →
      getall slots s = (false, slots,
        message s ("expects " ++ toString slots.length
          ++ " parameters, got only " ++ toString s.count))) ∧
    (∀ (slots : List Slot) (s : Args), 0 ≤ s.count → (slots.length : Int) ≤ s.count →
      getall slots s = getallGo slots s) ∧
    (∀ (a : Slot) (rest : List Slot) (s : Args), (getSlot a s).1 = true →
      getallGo (a :: rest) s
        = ((getallGo rest (getSlot a s).2.2).1,
           (getSlot a s).2.1 :: (getallGo rest (getSlot a s).2.2).2.1,
           (getallGo rest (getSlot a s).2.2).2.2)) ∧
    (∀ (a : Slot) (rest : List Slot) (s : Args), (getSlot a s).1 = false →
      getallGo (a :: rest) s = (false, (getSlot a s).2.1 :: rest, (getSlot a s).2.2)) := by
  refine ⟨?_, ?_, ?_, ?_⟩
  · intro slots s h0 hlt
    unfold getall
    rw [if_neg (by omega), if_pos (by omega)]
  · intro slots s h0 hle
    unfold getall
    rw [if_neg (by omega), if_neg (by omega)]
  · intro a rest s h
    simp [getallGo, h]
  · intro a rest s h
    simp [getallGo, h]

/-- Witness for C6: a two-slot `getall` with one token fails with the arity
message leaving position and slots untouched; a failing integer head slot
stops the fold with the tail slot untouched and the message state of the
failing `get`. -/
theorem c6_witness :
    getall [Slot.str "p", Slot.str "q"] (Args.mk ["5"] 0 1 "")
      = (false, [Slot.str "p", Slot.str "q"],
          Args.mk ["5"] 0 (-1) "expects 2 parameters, got only 1") ∧
    getallGo [Slot.int true 0 9 3, Slot.str "q"] (Args.mk ["zz", "w"] 0 2 "")
      = (false, [Slot.int true 0 9 3, Slot.str "q"],
          Args.mk ["zz", "w"] 0 (-1) ("expects number in place of " ++ sq ++ "zz" ++ sq)) :=
  ⟨(c6_getall_arity_short_circuit.1 [Slot.str "p", Slot.str "q"]
      (Args.mk ["5"] 0 1 "") (by decide) (by decide)).trans (by decide),
   (c6_getall_arity_short_circuit.2.2.2 (Slot.int true 0 9 3) [Slot.str "q"]
      (Args.mk ["zz", "w"] 0 2 "") (by decide)).trans (by decide)⟩

/-- Claim C7 (amended): after `str2argv` runs, exactly the bytes whose
symbol class is not `token` — every whitespace byte (newline included) and
every occurrence of the comment-marker byte — are overwritten in place with
the terminator byte; ordinary bytes, *including those in a comment body*,
are left intact (comment-body bytes are simply never referenced by a
recorded token start); tokenizing the example buffer yields exactly
["run", "--flag=1", "next"]. -/
theorem c7_tokenizer_amended :
    (∀ (comment : Char) (cs : List Char),
      (str2argv comment cs).1
        = cs.map (fun c => if symbolOf comment c = TSymbol.token then c else Char.ofNat 0)) ∧
    tokensOf (str2argv '#' "run  --flag=1 # comment\nnext".data)
      = ["run", "--flag=1", "next"] := by
  constructor
  · intro comment cs
    have h : ∀ (cs2 : List Char) (st : TState) (i : Nat),
        (str2argvGo comment st i cs2).1
          = cs2.map (fun c => if symbolOf comment c = TSymbol.token then c else Char.ofNat 0) := by
      intro cs2
      induction cs2 with
      | nil => intro st i; rfl
      | cons c rest ih => intro st i; simp [str2argvGo, ih]
    exact h cs .space 0
  · decide

/-- Counterexample to C7 as stated: in the buffer `"#ab\n"` the bytes `'a'`
and `'b'` lie strictly inside a comment (between the marker and the
newline), yet after tokenizing they are *not* overwritten with the
terminator byte — only the marker and the newline are. -/
theorem c7_counterexample :
    (str2argv '#' "#ab\n".data).1 = [Char.ofNat 0, 'a', 'b', Char.ofNat 0] ∧
    'a' ≠ Char.ofNat 0 := by
  decide

/-- Claim C9: a token that begins with an in-range run of decimal digits
followed by further non-numeric characters is accepted by `get` on an
integer slot — the numeric prefix's value is stored and the cursor advances
by one; the token need not be consumed entirely.  Likewise for `get` on a
floating-point slot (there the following character must also not extend the
number as `'.'`/`'e'`/`'E'` would). -/
theorem c9_numeric_leading :
    ∀ (sg : Bool) (lo hi v0 : Int) (q0 : ℚ) (s : Args) (ds junk : List Char),
      0 < s.count →
      cur s = String.mk (ds ++ junk) →
      ds ≠ [] →
      (∀ c ∈ ds, c.isDigit = true) →
      (∀ c, junk.head? = some c → c.isDigit = false) →
      lo ≤ (digitsToNat ds : Int) →
      (digitsToNat ds : Int) ≤ hi →
      getInt sg lo hi v0 s
          = (true, (digitsToNat ds : Int), { s with count := s.count - 1, pos := s.pos + 1 }) ∧
      ((∀ c, junk.head? = some c → c ≠ '.' ∧ c ≠ 'e' ∧ c ≠ 'E') →
        (digitsToNat ds : ℚ) ≤ maxDouble →
        getDouble q0 s
          = (true, (digitsToNat ds : ℚ), { s with count := s.count - 1, pos := s.pos + 1 })) := by
  intro sg lo hi v0 q0 s ds junk hc hcur hne hds hjunk hlo hhi
  constructor
  · unfold getInt
    rw [if_neg (by omega), hcur]
    simp only [fromCharsInt_digits sg lo hi ds junk hne hds hjunk hlo hhi]
  · intro hj2 hmax
    unfold getDouble
    rw [if_neg (by omega), hcur]
    simp only [fromCharsFloat_digits ds junk hne hds hjunk hj2 hmax]

/-- Witness for C9: the token `"12abc"` is accepted by both the integer and
the floating-point `get`, storing `12` and advancing the cursor by one. -/
theorem c9_witness :
    getInt false 0 4294967295 0 (Args.mk ["12abc"] 0 1 "")
      = (true, 12, Args.mk ["12abc"] 1 0 "") ∧
    getDouble 0 (Args.mk ["12abc"] 0 1 "")
      = (true, 12, Args.mk ["12abc"] 1 0 "") := by
  have h := c9_numeric_leading false 0 4294967295 0 0 (Args.mk ["12abc"] 0 1 "")
    ['1', '2'] ['a', 'b', 'c'] (by decide) (by decide) (by decide) (by decide)
    (by decide) (by decide) (by decide)
  have h12 : digitsToNat ['1', '2'] = 12 := by decide
  rw [h12] at h
  refine ⟨h.1.trans (by norm_num), ?_⟩
  refine (h.2 (by decide) (by norm_num [maxDouble])).trans (by norm_num)

/-- Claim C3 (amended): `parse` fails immediately on an empty cursor (zero
or negative count) without consuming anything; otherwise, when it returns,
it returns true exactly when the token loop exited at its own condition
check — no unknown-verb failure and no handler returning failure.  (This
does **not** require all tokens to have been consumed, nor exclude the
cursor ending in the FAILURE state: the loop also stops, reporting success,
when `count_` went negative after a successful handler.) -/
theorem c3_parse_result_amended :
    (∀ (C : Type) (fuel : Nat) (obj : C) (params : List (Param C)) (s : Args),
      s.count ≤ 0 →
        parseR fuel obj params s = some (.emptyCursor obj s) ∧
        parseB fuel obj params s = some false) ∧
    (∀ (C : Type) (fuel : Nat) (obj : C) (params : List (Param C)) (s : Args) (r : PResult C),
      parseR fuel obj params s = some r →
        (PResult.toBool r = true ↔ ∃ o2 s2, r = .ok o2 s2)) := by
  constructor
  · intro C fuel obj params s h
    have h1 : parseR fuel obj params s = some (.emptyCursor obj s) := by
      unfold parseR
      rw [if_pos h]
    refine ⟨h1, ?_⟩
    rw [parseB, h1]
    rfl
  · intro C fuel obj params s r _
    cases r with
    | ok o2 s2 => simp [PResult.toBool]
    | emptyCursor o2 s2 => simp [PResult.toBool]
    | unknownVerb k o2 s2 => simp [PResult.toBool]
    | handlerFailed k o2 s2 => simp [PResult.toBool]

/-- Witness for C3 (amended): a concrete empty cursor makes `parse` return
false at once with the state untouched. -/
theorem c3_witness :
    parseR 1 () ([] : List (Param Unit)) (Args.mk [] 0 0 "x")
      = some (.emptyCursor () (Args.mk [] 0 0 "x")) ∧
    parseB 1 () ([] : List (Param Unit)) (Args.mk [] 0 0 "x") = some false :=
  c3_parse_result_amended.1 Unit 1 () [] (Args.mk [] 0 0 "x") (by decide)

/-- Counterexample to C3 as stated: the handler for `"cmd"` fails an integer
extraction on `"xyz"` (entering the sticky FAILURE state) but returns true;
`parse` then returns **true** even though the token `"xyz"` was never
consumed (final `pos = 1 <` array length `2`) and the cursor ended in the
FAILURE state (`count = -1`) — the loop's `count_ >= 0` check silently turns
this into the success exit. -/
theorem c3_counterexample :
    parseB 3 ()
        [Param.mk (some (fun _ (o : Unit) a => (true, o, (getInt true (-2147483648) 2147483647 0 a).2.2)))
          (some "cmd") "" none]
        (Args.mk ["cmd", "xyz"] 0 2 "") = some true ∧
    parseR 3 ()
        [Param.mk (some (fun _ (o : Unit) a => (true, o, (getInt true (-2147483648) 2147483647 0 a).2.2)))
          (some "cmd") "" none]
        (Args.mk ["cmd", "xyz"] 0 2 "")
      = some (.ok () (Args.mk ["cmd", "xyz"] 1 (-1)
          ("expects number in place of " ++ sq ++ "xyz" ++ sq))) ∧
    (Args.mk ["cmd", "xyz"] 1 (-1) ("expects number in place of " ++ sq ++ "xyz" ++ sq)).count < 0 ∧
    (Args.mk ["cmd", "xyz"] 1 (-1) ("expects number in place of " ++ sq ++ "xyz" ++ sq)).pos
      < (Args.mk ["cmd", "xyz"] 1 (-1) ("expects number in place of " ++ sq ++ "xyz" ++ sq)).arr.length := by
  refine ⟨by decide, by decide, by decide, by decide⟩

/-- Claim C5: when the token loop of `parse` resolves a key that is not in
the dispatch table, it stops with failure and the accumulated error text
gains exactly "Unknown verb '<key>' expected one of:" followed by a space
and the canonical name of *every* descriptor of the original table, in
table order.  (Null `name()` pointers are excluded by hypothesis: appending
one would be undefined behaviour in the C++.) -/
theorem c5_unknown_verb_message {C : Type} :
    ∀ (fuel : Nat) (obj : C) (params : List (Param C)) (t : String) (s : Args),
      (∀ p ∈ params, p.name ≠ none) →
      ¬ s.count < 0 → t ≠ "" →
      buildMap params (keyOf t) = none →
      parseLoop (buildMap params) params (fuel + 1) obj t s
          = some (.unknownVerb (keyOf t) obj (unknownMsg (keyOf t) params s)) ∧
      (unknownMsg (keyOf t) params s).errors
          = s.errors ++ ("Unknown verb " ++ sq ++ keyOf t ++ sq ++ " expected one of:"
              ++ String.join (params.map (fun p => " " ++ p.name.getD ""))) ∧
      PResult.toBool (PResult.unknownVerb (keyOf t) obj (unknownMsg (keyOf t) params s)) = false ∧
      (unknownMsg (keyOf t) params s).count < 0 := by
  intro fuel obj params t s _hnames hc ht hbm
  refine ⟨?_, rfl, rfl, by simp [unknownMsg, message]⟩
  unfold parseLoop
  rw [if_neg (not_or.mpr ⟨hc, ht⟩)]
  simp only [hbm]

/-- Witness for C5: a table with canonical names `"a"` and `"b"` and the
unknown token `"c"` produce exactly the error text
"Unknown verb 'c' expected one of: a b". -/
theorem c5_witness :
    parseLoop
        (buildMap [Param.mk (some (fun _ (o : Unit) a => (true, o, a))) (some "a") "" none,
                   Param.mk (some (fun _ (o : Unit) a => (true, o, a))) (some "b") "" none])
        [Param.mk (some (fun _ (o : Unit) a => (true, o, a))) (some "a") "" none,
         Param.mk (some (fun _ (o : Unit) a => (true, o, a))) (some "b") "" none]
        1 () "c" (Args.mk ["c"] 1 0 "")
      = some (.unknownVerb "c" () (Args.mk ["c"] 1 (-1)
          ("Unknown verb " ++ sq ++ "c" ++ sq ++ " expected one of: a b"))) := by
  have h := c5_unknown_verb_message 0 ()
    [Param.mk (some (fun _ (o : Unit) a => (true, o, a))) (some "a") "" none,
     Param.mk (some (fun _ (o : Unit) a => (true, o, a))) (some "b") "" none]
    "c" (Args.mk ["c"] 1 0 "") (by decide) (by decide) (by decide) rfl
  exact h.1.trans (by decide)

/-- Claim C10: the unknown-verb listing enumerates the names of **all**
descriptors of the original table, including a descriptor that fails the
validity predicate (here `"b"`, whose dispatch-reference is null): `"b"`
appears in the error text even though the dispatch table it was skipped
from resolves `"b"` to nothing. -/
theorem c10_invalid_names_listed :
    parseR 2 ()
        [Param.mk (some (fun _ (o : Unit) a => (true, o, a))) (some "a") "" none,
         Param.mk none (some "b") "" none]
        (Args.mk ["c"] 0 1 "")
      = some (.unknownVerb "c" () (Args.mk ["c"] 1 (-1)
          ("Unknown verb " ++ sq ++ "c" ++ sq ++ " expected one of: a b"))) ∧
    pValid (Param.mk (none : Option (Dispatcher Unit)) (some "b") "" none) = false ∧
    buildMap [Param.mk (some (fun _ (o : Unit) a => (true, o, a))) (some "a") "" none,
              Param.mk none (some "b") "" none] "b" = none := by
  refine ⟨by decide, by decide, ?_⟩
  rfl

/-- Claim C4: when the token loop of `parse` handles a token
`t = k ++ "=" ++ v` (first `'='` after `k`) whose key `k ++ "="` resolves to
the dispatcher `d`, (1) the spliced cursor handed to the handler exposes the
remainder `v` as the next token — a `get()` inside the handler returns `v`;
(2) whatever the handler does (success or failure, remainder consumed or
not — it cannot rewrite the token array through the cursor's public
interface, which the frame hypothesis expresses), after the `revert` the
token array again holds its original pre-split content; and (3) the loop
iteration is exactly: invoke `d` on the spliced state, restore, then either
continue (handler success) or stop with the handler's failure. -/
theorem c4_split_and_restore {C : Type} :
    ∀ (fuel : Nat) (obj : C) (params : List (Param C)) (s : Args) (t k v : String)
      (d : Dispatcher C),
      0 ≤ s.count →
      1 ≤ s.pos →
      s.arr.get? (s.pos - 1) = some t →
      t = k ++ "=" ++ v →
      (∀ c ∈ k.data, (c == '=') = false) →
      buildMap params (k ++ "=") = some d →
      (∀ (nm : String) (o : C) (a : Args), ((d nm o a).2.2).arr = a.arr) →
      (get (unget (k.length + 1) s).2).1 = v ∧
      (revert (unget (k.length + 1) s).1
          ((d (k ++ "=") obj (unget (k.length + 1) s).2).2.2)).arr = s.arr ∧
      parseLoop (buildMap params) params (fuel + 1) obj t s
        = (if (d (k ++ "=") obj (unget (k.length + 1) s).2).1 then
            parseLoop (buildMap params) params fuel
              (d (k ++ "=") obj (unget (k.length + 1) s).2).2.1
              (get (revert (unget (k.length + 1) s).1
                ((d (k ++ "=") obj (unget (k.length + 1) s).2).2.2))).1
              (get (revert (unget (k.length + 1) s).1
                ((d (k ++ "=") obj (unget (k.length + 1) s).2).2.2))).2
          else some (.handlerFailed (k ++ "=")
              (d (k ++ "=") obj (unget (k.length + 1) s).2).2.1
              (revert (unget (k.length + 1) s).1
                ((d (k ++ "=") obj (unget (k.length + 1) s).2).2.2)))) := by
  intro fuel obj params s t k v d hc hp hget ht hk hbm harr
  have hlt : s.pos - 1 < s.arr.length := get?_some_lt _ _ _ hget
  have horig : s.arr.getD (s.pos - 1) "" = t := getD_of_get? _ _ _ _ hget
  have heqd : "=".data = ['='] := rfl
  have hdata : t.data = k.data ++ '=' :: v.data := by
    rw [ht, String.data_append, String.data_append, heqd]
    simp
  have htne : t ≠ "" := by
    intro h0
    have h1 : t.data = [] := by rw [h0]
    rw [hdata] at h1
    exact absurd h1 (by simp)
  have hlen : k.length = k.data.length := rfl
  have hfind : findEq t = some k.length := by
    rw [hlen]
    unfold findEq
    simp only [hdata,
      findIdx_append_first (p := fun c => c == '=') k.data '=' v.data hk rfl]
    rw [if_pos (by simp)]
  have hkey : keyOf t = k ++ "=" := by
    unfold keyOf
    simp only [hfind]
    unfold strTake
    rw [hlen, hdata, take_len_succ_append]
    have h2 : (k ++ "=").data = k.data ++ ['='] := by rw [String.data_append, heqd]
    rw [← h2, str_mk_data]
  have hdropv : strDrop t (k.length + 1) = v := by
    unfold strDrop
    rw [hlen, hdata, drop_len_succ_append, str_mk_data]
  have hU : unget (k.length + 1) s
      = (some (s.pos - 1, t),
         { s with count := s.count + 1, pos := s.pos - 1,
                  arr := s.arr.set (s.pos - 1) v }) := by
    unfold unget
    rw [if_neg (by omega)]
    simp only [horig, hdropv]
  refine ⟨?_, ?_, ?_⟩
  · rw [hU]
    unfold get
    rw [if_neg (by show ¬ (s.count + 1 ≤ 0); omega)]
    show (s.arr.set (s.pos - 1) v).getD (s.pos - 1) "" = v
    exact getD_set_self _ _ _ _ hlt
  · rw [hU]
    unfold revert
    show (((d (k ++ "=") obj _).2.2).arr.set (s.pos - 1) t) = s.arr
    rw [harr]
    show ((s.arr.set (s.pos - 1) v).set (s.pos - 1) t) = s.arr
    rw [List.set_set]
    exact set_of_get? _ _ _ hget
  · unfold parseLoop
    rw [if_neg (not_or.mpr ⟨by omega, htne⟩)]
    simp only [hkey, hfind, hbm]
    cases fuel with
    | zero => rfl
    | succ f => rfl

/-- Witness for C4: the token `"--opt=5"` against descriptor name
`"--opt="`, with a handler that consumes nothing and fails: the spliced
cursor's `get()` returns `"5"`, and after the handler the array slot again
holds `"--opt=5"`; the loop returns the handler's failure. -/
theorem c4_witness :
    (get (unget 6 (Args.mk ["--opt=5"] 1 0 "")).2).1 = "5" ∧
    (revert (unget 6 (Args.mk ["--opt=5"] 1 0 "")).1
        (((fun _ (o : Unit) a => (false, o, a)) "--opt=" ()
          (unget 6 (Args.mk ["--opt=5"] 1 0 "")).2)).2.2).arr = ["--opt=5"] ∧
    parseLoop
        (buildMap [Param.mk (some (fun _ (o : Unit) a => (false, o, a))) (some "--opt=") "" none])
        [Param.mk (some (fun _ (o : Unit) a => (false, o, a))) (some "--opt=") "" none]
        1 () "--opt=5" (Args.mk ["--opt=5"] 1 0 "")
      = some (.handlerFailed "--opt=" () (Args.mk ["--opt=5"] 0 1 "")) := by
  have h := c4_split_and_restore 0 ()
    [Param.mk (some (fun _ (o : Unit) a => (false, o, a))) (some "--opt=") "" none]
    (Args.mk ["--opt=5"] 1 0 "") "--opt=5" "--opt" "5"
    (fun _ (o : Unit) a => (false, o, a))
    (by decide) (by decide) (by decide) (by decide) (by decide) rfl
    (fun _ _ _ => rfl)
  exact ⟨h.1, h.2.1, h.2.2.trans (by decide)⟩

end Simplearg
